import Mathlib

/-!
Verification of the resilient AI invoker in `src/lib/ai-manager.ts`:
multi-model fallback, retry with exponential backoff, and structured
validation of JSON responses.  The TypeScript code is shallowly embedded:
JavaScript runtime values become the `JsValue` inductive, the stateful
retry loops become fuel-indexed recursive functions that also return an
explicit trace of the attempts made, the backoff sleeps requested and the
sink invocations performed, and the upstream network is an oracle stored
in the environment record.
-/

/-! ## JavaScript value model -/

/-- JavaScript runtime values as produced by JSON parsing, plus `undefined`
(the result of reading an absent property). -/
inductive JsValue where
  | null : JsValue
  | undefined : JsValue
  | bool (b : Bool) : JsValue
  | num (n : Int) : JsValue
  | str (s : String) : JsValue
  | arr (l : List JsValue) : JsValue
  | obj (fields : List (String × JsValue)) : JsValue

/-- JavaScript truthiness: `undefined`, `null`, `false`, `0` and `''` are
falsy; every array and object is truthy. -/
def jsTruthy : JsValue → Bool
  | .null => false
  | .undefined => false
  | .bool b => b
  | .num n => n ≠ 0
  | .str s => s ≠ ""
  | .arr _ => true
  | .obj _ => true

/-- `typeof v === 'object'`: true for plain objects, arrays and `null`. -/
def jsIsObjectType : JsValue → Bool
  | .null => true
  | .arr _ => true
  | .obj _ => true
  | _ => false

/-- `Array.isArray(v)`. -/
def jsIsArray : JsValue → Bool
  | .arr _ => true
  | _ => false

/-- Whether the value is a string (`typeof v === 'string'`). -/
def jsIsStr : JsValue → Bool
  | .str _ => true
  | _ => false

/-- First binding of a key in an object's field list. -/
def jsLookup : List (String × JsValue) → String → Option JsValue
  | [], _ => none
  | (k, v) :: rest, key => if k = key then some v else jsLookup rest key

/-- Property read `v[key]`: `undefined` on absent keys and non-objects. -/
def jsGet (v : JsValue) (key : String) : JsValue :=
  match v with
  | .obj fields => (jsLookup fields key).getD .undefined
  | _ => .undefined

/-- The `key in v` operator (restricted to plain objects). -/
def jsHasKey (v : JsValue) (key : String) : Bool :=
  match v with
  | .obj fields => (jsLookup fields key).isSome
  | _ => false

/-- Replace the first binding of a key, or append a new one. -/
def jsSetFields : List (String × JsValue) → String → JsValue → List (String × JsValue)
  | [], key, x => [(key, x)]
  | (k, v) :: rest, key, x =>
    if k = key then (k, x) :: rest else (k, v) :: jsSetFields rest key x

/-- Property write `v[key] = x` (a no-op on non-objects). -/
def jsSet (v : JsValue) (key : String) (x : JsValue) : JsValue :=
  match v with
  | .obj fields => .obj (jsSetFields fields key x)
  | _ => v

/-- The element list of an array value; `[]` for any other value. -/
def asArray : JsValue → List JsValue
  | .arr l => l
  | _ => []

/-- `v.length > 0`: positive length for arrays and strings, false otherwise
(`.length` reads `undefined` on other values). -/
def jsPosLen : JsValue → Bool
  | .arr l => !l.isEmpty
  | .str s => s.length > 0
  | _ => false

/-- Index read `v[0]` for arrays; `undefined` otherwise. -/
def jsIndex0 : JsValue → JsValue
  | .arr (x :: _) => x
  | _ => .undefined

mutual

/-- The `String(v)` conversion used implicitly by string contexts. -/
def jsStr : JsValue → String
  | .null => "null"
  | .undefined => "undefined"
  | .bool b => if b then "true" else "false"
  | .num n => toString n
  | .str s => s
  | .arr l => jsStrJoin "," l
  | .obj _ => "[object Object]"

/-- `Array.prototype.join(sep)`. -/
def jsStrJoin (sep : String) : List JsValue → String
  | [] => ""
  | [v] => jsStrElem v
  | v :: rest => jsStrElem v ++ sep ++ jsStrJoin sep rest

/-- Element stringification inside `join`: `null` and `undefined` become
the empty string. -/
def jsStrElem : JsValue → String
  | .null => ""
  | .undefined => ""
  | v => jsStr v

end

/-! ## Character-level string helpers (JavaScript semantics) -/

/-- Whitespace recognised by `String.prototype.trim`. -/
def isWs (c : Char) : Bool := c = ' ' || c = '\t' || c = '\n' || c = '\r'

/-- Worker for `jsSplit`, accumulating the current piece in reverse. -/
def jsSplitAux (sep : Char) : List Char → List Char → List (List Char)
  | [], acc => [acc.reverse]
  | c :: rest, acc =>
    if c = sep then acc.reverse :: jsSplitAux sep rest []
    else jsSplitAux sep rest (c :: acc)

/-- `String.prototype.split(sep)` for a one-character separator: keeps
empty pieces, and an input without the separator yields one piece. -/
def jsSplit (sep : Char) (s : List Char) : List (List Char) := jsSplitAux sep s []

/-- Strip leading and trailing whitespace from a character list. -/
def jsTrimChars (l : List Char) : List Char :=
  ((l.dropWhile isWs).reverse.dropWhile isWs).reverse

/-- `String.prototype.trim`. -/
def jsTrim (s : String) : String := String.mk (jsTrimChars s.toList)

/-- `String.prototype.toLowerCase` (character-wise). -/
def jsToLower (s : String) : String := String.mk (s.toList.map Char.toLower)

/-- Whether `pre` is a prefix of `l`. -/
def leadsWith : List Char → List Char → Bool
  | [], _ => true
  | _ :: _, [] => false
  | a :: as, b :: bs => a = b && leadsWith as bs

/-- `String.prototype.startsWith`. -/
def startsWithStr (pre s : String) : Bool := leadsWith pre.toList s.toList

/-- `Array.prototype.join(sep)` on a list of strings. -/
def joinSep (sep : String) : List String → String
  | [] => ""
  | [s] => s
  | s :: rest => s ++ sep ++ joinSep sep rest

/-! ## Response validation (`validateJsonResponse` and field validators)

The debug-logging toggle `debugLoggingEnabled` only guards `console.log`
calls; the embedding threads it through every validator as a `Bool` and
returns the produced log lines alongside the functional result, so that
its (non-)influence on the result can be stated. -/

/-- Result record of `validateJsonResponse` (`ValidationResult`). -/
structure ValidationResult where
  isValid : Bool
  data : JsValue
  errors : List String

/-- Debug log lines: emitted only when the toggle is on. -/
def dlog (debug : Bool) (l : List String) : List String := if debug then l else []

/-- `validateTitleFormulas`: `titleFormulas` must be a truthy object with a
non-empty array `suggestedFormulas` and an array `commonKeywords`.
Returns the grown error list and the debug log lines. -/
def validateTitleFormulas (debug : Bool) (titleFormulas : JsValue) (errors : List String) :
    List String × List String :=
  if !jsTruthy titleFormulas || !jsIsObjectType titleFormulas then
    (errors ++ ["titleFormulas字段缺失或格式错误"], [])
  else
    let sf := jsGet titleFormulas "suggestedFormulas"
    let step1 : List String × List String :=
      if !jsIsArray sf || (asArray sf).isEmpty then
        (errors ++ ["titleFormulas.suggestedFormulas应该是非空数组"], [])
      else
        (errors, dlog debug ["✅ 标题公式包含 " ++ toString (asArray sf).length ++ " 个公式"])
    if !jsIsArray (jsGet titleFormulas "commonKeywords") then
      (step1.1 ++ ["titleFormulas.commonKeywords应该是数组"], step1.2)
    else step1

/-- `validateContentStructure`: truthy object with non-empty arrays
`openingHooks` and `endingHooks` and a truthy string `bodyTemplate`. -/
def validateContentStructure (debug : Bool) (contentStructure : JsValue) (errors : List String) :
    List String × List String :=
  if !jsTruthy contentStructure || !jsIsObjectType contentStructure then
    (errors ++ ["contentStructure字段缺失或格式错误"], [])
  else
    let e1 :=
      if !jsIsArray (jsGet contentStructure "openingHooks")
          || (asArray (jsGet contentStructure "openingHooks")).isEmpty then
        errors ++ ["contentStructure.openingHooks应该是非空数组"]
      else errors
    let e2 :=
      if !jsIsArray (jsGet contentStructure "endingHooks")
          || (asArray (jsGet contentStructure "endingHooks")).isEmpty then
        e1 ++ ["contentStructure.endingHooks应该是非空数组"]
      else e1
    let e3 :=
      if !jsTruthy (jsGet contentStructure "bodyTemplate")
          || !jsIsStr (jsGet contentStructure "bodyTemplate") then
        e2 ++ ["contentStructure.bodyTemplate应该是字符串"]
      else e2
    (e3, dlog debug ["✅ 内容结构验证通过：开头和结尾钩子已检查"])

/-- `validateTagStrategy`: truthy object; a falsy `commonTags` (absent,
`null`, `''`, `0`, `false`) is overwritten with a synthesized array built
from `tagCategories.coreKeywords ++ tagCategories.longTailKeywords`
truncated to 10 entries (the in-place mutation is modelled by returning
the updated value); a truthy non-array `commonTags` records an error.
Returns (updated value, errors, debug log lines). -/
def validateTagStrategy (debug : Bool) (tagStrategy : JsValue) (errors : List String) :
    JsValue × List String × List String :=
  if !jsTruthy tagStrategy || !jsIsObjectType tagStrategy then
    (tagStrategy, errors ++ ["tagStrategy字段缺失或格式错误"], [])
  else
    let logs0 := dlog debug ["🔍 tagStrategy结构已打印"]
    if !jsTruthy (jsGet tagStrategy "commonTags") then
      let logs1 := logs0 ++ dlog debug ["⚠️ commonTags字段不存在，尝试从其他字段提取"]
      if jsTruthy (jsGet tagStrategy "tagCategories") then
        let tc := jsGet tagStrategy "tagCategories"
        let extractedTags := asArray (jsGet tc "coreKeywords") ++ asArray (jsGet tc "longTailKeywords")
        (jsSet tagStrategy "commonTags" (.arr (extractedTags.take 10)), errors,
          logs1 ++ dlog debug ["🔧 自动生成commonTags", "✅ 标签策略验证通过"])
      else
        (jsSet tagStrategy "commonTags" (.arr []), errors,
          logs1 ++ dlog debug ["✅ 标签策略验证通过"])
    else if !jsIsArray (jsGet tagStrategy "commonTags") then
      (tagStrategy, errors ++ ["tagStrategy.commonTags应该是数组"],
        logs0 ++ dlog debug ["⚠️ commonTags不是数组", "✅ 标签策略验证通过"])
    else
      (tagStrategy, errors, logs0 ++ dlog debug ["✅ 标签策略验证通过"])

/-- `validateCoverStyleAnalysis`: truthy object with a non-empty array
`commonStyles`. -/
def validateCoverStyleAnalysis (debug : Bool) (coverStyleAnalysis : JsValue) (errors : List String) :
    List String × List String :=
  if !jsTruthy coverStyleAnalysis || !jsIsObjectType coverStyleAnalysis then
    (errors ++ ["coverStyleAnalysis字段缺失或格式错误"], [])
  else
    let e1 :=
      if !jsIsArray (jsGet coverStyleAnalysis "commonStyles")
          || (asArray (jsGet coverStyleAnalysis "commonStyles")).isEmpty then
        errors ++ ["coverStyleAnalysis.commonStyles应该是非空数组"]
      else errors
    (e1, dlog debug ["✅ 封面风格分析验证通过"])

/-- `validateJsonResponse(content, expectedFields)`.  `parse` stands for
`safeJsonParse` (defined in `lib/utils`, outside this file's sources):
it returns `none` exactly when the text is not valid JSON.  Returns the
`ValidationResult` and the log lines produced along the way. -/
def validateJsonResponse (debug : Bool) (parse : String → Option JsValue)
    (content : String) (expectedFields : List String) : ValidationResult × List String :=
  if content = "" || jsTrim content = "" then
    (⟨false, .null, ["AI返回了空响应"]⟩, [])
  else
    let logs0 := dlog debug
      ["🔍 AI响应内容长度: " ++ toString content.length ++ " 字符", "🔍 AI响应前100字符已打印"]
    match parse content with
    | none =>
      (⟨false, .null, ["AI返回的不是有效的JSON格式"]⟩,
        logs0 ++ ["❌ JSON解析失败，原始内容: " ++ content])
    | some parsed =>
      let logs1 := logs0 ++ dlog debug ["✅ JSON解析成功，字段已列出"]
      let errs0 := expectedFields.foldl
        (fun acc f =>
          if !jsHasKey parsed f || !jsTruthy (jsGet parsed f) then acc ++ ["缺少必需字段: " ++ f]
          else acc) []
      let rulesStep : List String × List String :=
        if expectedFields.contains "rules" then
          if !jsIsArray (jsGet parsed "rules") || (asArray (jsGet parsed "rules")).isEmpty then
            (errs0 ++ ["rules字段应该是非空数组"], [])
          else (errs0, dlog debug ["✅ rules数组已检查"])
        else (errs0, [])
      let tfStep : List String × List String :=
        if expectedFields.contains "titleFormulas" then
          validateTitleFormulas debug (jsGet parsed "titleFormulas") rulesStep.1
        else (rulesStep.1, [])
      let csStep : List String × List String :=
        if expectedFields.contains "contentStructure" then
          validateContentStructure debug (jsGet parsed "contentStructure") tfStep.1
        else (tfStep.1, [])
      let tsStep : JsValue × List String × List String :=
        if expectedFields.contains "tagStrategy" then
          let r := validateTagStrategy debug (jsGet parsed "tagStrategy") csStep.1
          (if jsHasKey parsed "tagStrategy" then jsSet parsed "tagStrategy" r.1 else parsed,
            r.2.1, r.2.2)
        else (parsed, csStep.1, [])
      let covStep : List String × List String :=
        if expectedFields.contains "coverStyleAnalysis" then
          validateCoverStyleAnalysis debug (jsGet tsStep.1 "coverStyleAnalysis") tsStep.2.1
        else (tsStep.2.1, [])
      (⟨covStep.1.isEmpty, tsStep.1, covStep.1⟩,
        logs1 ++ rulesStep.2 ++ tfStep.2 ++ csStep.2 ++ tsStep.2.2 ++ covStep.2)

/-! ## Configuration, client handle and backoff -/

/-- Retry configuration (`RetryConfig`); the numeric fields are the
natural-number values the code uses (milliseconds and a multiplier). -/
structure RetryConfig where
  maxRetries : Nat
  baseDelay : Nat
  maxDelay : Nat
  backoffMultiplier : Nat
deriving DecidableEq

/-- The `AIManager` instance default: 2 retries, 1000ms base, 10000ms cap,
multiplier 2. -/
def defaultRetryConfig : RetryConfig := ⟨2, 1000, 10000, 2⟩

/-- `calculateDelay(attempt)`: exponential backoff capped at `maxDelay`. -/
def calculateDelay (cfg : RetryConfig) (attempt : Nat) : Nat :=
  min (cfg.baseDelay * cfg.backoffMultiplier ^ attempt) cfg.maxDelay

/-- Modelled from the spec: `getEnvVar` (defined in `lib/utils`, outside
this file's sources) reads a configuration value, falling back to the
given default when the variable is unset. -/
def getEnvVar (value : Option String) (fallback : String) : String := value.getD fallback

/-- Modelled from the spec: `CONFIG.DEFAULT_AI_MODEL` (defined in
`lib/constants`, outside this file's sources) is the documented default
model name from `.env.example`. -/
def DEFAULT_AI_MODEL : String := "gemini-2.5-flash"

/-- Truthiness of an optional environment string: unset and `''` are falsy. -/
def optTruthy : Option String → Bool
  | none => false
  | some s => s ≠ ""

/-- `BusinessError(message, title, advice, retryable)` as constructed by the
code; modelled from the spec as an `Error` subclass carrying a technical
message, a category label, a remediation hint and a retryable flag. -/
structure BusinessError where
  message : String
  category : String
  hint : String
  retryable : Bool
deriving DecidableEq

/-- A thrown JavaScript error: either a plain `Error` or a `BusinessError`. -/
inductive JsError where
  | plain (message : String)
  | business (e : BusinessError)

/-- The `.message` of a thrown error. -/
def JsError.message : JsError → String
  | .plain m => m
  | .business e => e.message

/-- The call environment: configuration values, the debug toggle, the JSON
parser oracle (`safeJsonParse`), the non-streaming upstream oracle
(`respond model attempt` is the raw response, or a thrown error message),
and the streaming upstream oracle (`streamRespond model attempt` is the
list of chunks delivered, paired with an error thrown after them, if any). -/
structure Env where
  apiUrl : Option String
  apiKey : Option String
  modelEnv : Option String
  debug : Bool
  parse : String → Option JsValue
  respond : String → Nat → Except String JsValue
  streamRespond : String → Nat → List JsValue × Option String

/-- `getModelList()`: split the configured comma-separated model names
(default `DEFAULT_AI_MODEL`), trim each entry and drop empty entries. -/
def parseModelList (s : String) : List String :=
  ((jsSplit ',' s.toList).map (fun cs => String.mk (jsTrimChars cs))).filter
    (fun name => name.length > 0)

/-- `getModelList()` reading the `AI_MODEL_NAME` configuration value. -/
def getModelList (env : Env) : List String :=
  parseModelList (getEnvVar env.modelEnv DEFAULT_AI_MODEL)

/-- `getClient()`: fails with a non-retryable configuration `BusinessError`
when the API URL or key is absent (or empty); otherwise yields the handle.
The lazily cached handle is not modelled: within one call the check is
deterministic, so caching is unobservable here. -/
def getClient (env : Env) : Except BusinessError Unit :=
  if !optTruthy env.apiUrl || !optTruthy env.apiKey then
    .error ⟨"AI服务配置不完整", "AI服务配置错误",
      "请检查环境变量配置，确保API地址和密钥正确设置", false⟩
  else .ok ()

/-! ## `analyzeWithRetry` -/

/-- Content extraction from a raw response in `analyzeWithRetry`: an array
is joined into one string, a string is used directly, a choices-bearing
object yields `choices[0]?.message?.content || ''`, anything else yields
the empty string. -/
def extractContent (response : JsValue) : String :=
  match response with
  | .arr l => jsStrJoin "" l
  | .str s => s
  | _ =>
    if jsTruthy response && jsTruthy (jsGet response "choices")
        && jsPosLen (jsGet response "choices") then
      let c := jsGet (jsGet (jsIndex0 (jsGet response "choices")) "message") "content"
      if jsTruthy c then jsStr c else ""
    else ""

/-- The default `expectedFields` of `analyzeWithRetry`. -/
def defaultExpectedFields : List String :=
  ["titleFormulas", "contentStructure", "tagStrategy", "coverStyleAnalysis"]

/-- The body of one `try` block of `analyzeWithRetry`: resolve the client,
call the upstream, extract content, reject empty content, validate the
JSON; any failure becomes the thrown error the `catch` receives. -/
def attemptOnce (env : Env) (expectedFields : List String) (model : String) (attempt : Nat) :
    Except JsError JsValue :=
  match getClient env with
  | .error be => .error (.business be)
  | .ok _ =>
    match env.respond model attempt with
    | .error m => .error (.plain m)
    | .ok response =>
      let content := extractContent response
      if content = "" || jsTrim content = "" then
        .error (.plain "AI返回了空内容或无法识别的响应格式")
      else
        let v := (validateJsonResponse env.debug env.parse content expectedFields).1
        if v.isValid then .ok v.data
        else .error (.plain ("AI响应验证失败: " ++ joinSep ", " v.errors))

/-- Outcome of a retry loop level: success with data, or exhaustion
carrying the `lastError` message. -/
inductive LoopOut where
  | success (data : JsValue)
  | exhausted (last : Option String)

/-- The inner attempt loop of `analyzeWithRetry` for one model, starting at
attempt index `a` with `fuel` attempts left.  Returns the outcome, the
list of (model, attempt) pairs tried in order, and the backoff sleeps
performed (`calculateDelay attempt` whenever `attempt < maxRetries`). -/
def runModel (env : Env) (cfg : RetryConfig) (fields : List String) (model : String) :
    Nat → Nat → Option String → LoopOut × List (String × Nat) × List Nat
  | _, 0, last => (.exhausted last, [], [])
  | a, fuel + 1, last =>
    match attemptOnce env fields model a with
    | .ok data => (.success data, [(model, a)], [])
    | .error e =>
      let sl := if a < cfg.maxRetries then [calculateDelay cfg a] else []
      let r := runModel env cfg fields model (a + 1) fuel (some e.message)
      (r.1, (model, a) :: r.2.1, sl ++ r.2.2)

/-- The outer model loop of `analyzeWithRetry`: each model gets attempts
`0..maxRetries`; `lastError` is threaded across models. -/
def runModels (env : Env) (cfg : RetryConfig) (fields : List String) :
    List String → Option String → LoopOut × List (String × Nat) × List Nat
  | [], last => (.exhausted last, [], [])
  | m :: ms, last =>
    let r := runModel env cfg fields m 0 (cfg.maxRetries + 1) last
    match r.1 with
    | .success d => (.success d, r.2.1, r.2.2)
    | .exhausted last2 =>
      let r2 := runModels env cfg fields ms last2
      (r2.1, r.2.1 ++ r2.2.1, r.2.2 ++ r2.2.2)

/-- Observable result of a whole `analyzeWithRetry` call: the returned data
or thrown error, plus the trace of attempts and backoff sleeps. -/
structure AnalyzeResult where
  outcome : Except JsError JsValue
  attempts : List (String × Nat)
  sleeps : List Nat

/-- `analyzeWithRetry(prompt, expectedFields)`: try every model in the
configured list, `maxRetries + 1` attempts each; if everything fails,
throw the aggregate `BusinessError` naming all models and the last
underlying error message (`undefined` when no attempt ran). -/
def analyzeWithRetry (env : Env) (cfg : RetryConfig) (expectedFields : List String) :
    AnalyzeResult :=
  let modelList := getModelList env
  let r := runModels env cfg expectedFields modelList none
  match r.1 with
  | .success d => ⟨.ok d, r.2.1, r.2.2⟩
  | .exhausted last =>
    ⟨.error (.business
      ⟨"AI分析失败，已尝试所有模型 [" ++ joinSep ", " modelList ++ "]，每个模型重试"
          ++ toString cfg.maxRetries ++ "次: " ++ last.getD "undefined",
        "AI分析失败", "请稍后重试，如果问题持续请联系技术支持", true⟩),
      r.2.1, r.2.2⟩

/-! ## `generateStreamWithRetry` -/

/-- Content extraction from one streamed chunk: a choices-bearing object
yields `choices[0]?.delta?.content || ''`, a plain string chunk is used
directly, any other shape yields the empty string (ignored). -/
def extractChunkContent (chunk : JsValue) : String :=
  if jsTruthy chunk && jsTruthy (jsGet chunk "choices") && jsPosLen (jsGet chunk "choices") then
    let c := jsGet (jsGet (jsIndex0 (jsGet chunk "choices")) "delta") "content"
    if jsTruthy c then jsStr c else ""
  else
    match chunk with
    | .str s => s
    | _ => ""

/-- One streaming attempt: the `onChunk` strings emitted (each non-empty
extracted content, in order) and the thrown error, if any.  A cleanly
completed stream with zero emitted fragments throws the no-content error
(and emits nothing). -/
def streamAttemptOnce (env : Env) (model : String) (attempt : Nat) :
    List String × Option JsError :=
  match getClient env with
  | .error be => ([], some (.business be))
  | .ok _ =>
    let delivered := env.streamRespond model attempt
    let emitted := (delivered.1.map extractChunkContent).filter (fun s => s ≠ "")
    match delivered.2 with
    | some m => (emitted, some (.plain m))
    | none =>
      if emitted.isEmpty then ([], some (.plain "AI流式响应未返回任何内容"))
      else (emitted, none)

/-- Trace of a streaming loop: `onChunk` strings, attempts, sleeps. -/
structure StreamTrace where
  chunks : List String
  attempts : List (String × Nat)
  sleeps : List Nat

/-- Inner attempt loop of `generateStreamWithRetry` for one model; the
`Bool` is success. -/
def streamRunModel (env : Env) (cfg : RetryConfig) (model : String) :
    Nat → Nat → Option String → Bool × Option String × StreamTrace
  | _, 0, last => (false, last, ⟨[], [], []⟩)
  | a, fuel + 1, last =>
    let att := streamAttemptOnce env model a
    match att.2 with
    | none => (true, last, ⟨att.1, [(model, a)], []⟩)
    | some e =>
      let sl := if a < cfg.maxRetries then [calculateDelay cfg a] else []
      let r := streamRunModel env cfg model (a + 1) fuel (some e.message)
      (r.1, r.2.1, ⟨att.1 ++ r.2.2.chunks, (model, a) :: r.2.2.attempts, sl ++ r.2.2.sleeps⟩)

/-- Outer model loop of `generateStreamWithRetry`. -/
def streamRunModels (env : Env) (cfg : RetryConfig) :
    List String → Option String → Bool × Option String × StreamTrace
  | [], last => (false, last, ⟨[], [], []⟩)
  | m :: ms, last =>
    let r := streamRunModel env cfg m 0 (cfg.maxRetries + 1) last
    if r.1 then r
    else
      let r2 := streamRunModels env cfg ms r.2.1
      (r2.1, r2.2.1,
        ⟨r.2.2.chunks ++ r2.2.2.chunks, r.2.2.attempts ++ r2.2.2.attempts,
          r.2.2.sleeps ++ r2.2.2.sleeps⟩)

/-- Observable result of a whole `generateStreamWithRetry` call: the
`onChunk` invocations, the `onError` invocations (the function itself
always returns normally: failure is reported only through `onError`),
and the attempt/sleep trace. -/
structure StreamResult where
  chunks : List String
  errorCalls : List BusinessError
  attempts : List (String × Nat)
  sleeps : List Nat

/-- `generateStreamWithRetry(prompt, onChunk, onError)`: same orchestration
as `analyzeWithRetry`; on exhaustion the aggregate `BusinessError` is
passed to `onError` (exactly one entry in `errorCalls`) instead of being
thrown. -/
def generateStreamWithRetry (env : Env) (cfg : RetryConfig) : StreamResult :=
  let modelList := getModelList env
  let r := streamRunModels env cfg modelList none
  if r.1 then ⟨r.2.2.chunks, [], r.2.2.attempts, r.2.2.sleeps⟩
  else
    ⟨r.2.2.chunks,
      [⟨"流式生成失败，已尝试所有模型 [" ++ joinSep ", " modelList ++ "]，每个模型重试"
          ++ toString cfg.maxRetries ++ "次: " ++ r.2.1.getD "undefined",
        "内容生成失败", "请稍后重试，如果问题持续请联系技术支持", true⟩],
      r.2.2.attempts, r.2.2.sleeps⟩

/-! ## Spec-side predicate and concrete test environments -/

/-- An environment whose model configuration is unset; the oracles are
immaterial for model-list resolution. -/
def envUnsetModel : Env :=
  ⟨some "https://u", some "k", none, false, fun _ => none, fun _ _ => .error "x",
    fun _ _ => ([], some "x")⟩

/-- A 2-model environment whose upstream always throws a transient network
error. -/
def envAlwaysFail : Env :=
  ⟨some "https://u", some "k", some "m1,m2", false, fun _ => none,
    fun _ _ => .error "boom", fun _ _ => ([], some "boom")⟩

/-- Modelled from the spec: its classification of a response text that
begins, after trimming and case-folding, with a doctype or an html tag.
No corresponding check exists anywhere in `ai-manager.ts`. -/
def htmlPrefixed (s : String) : Bool :=
  startsWithStr "<!doctype" (jsToLower (jsTrim s)) || startsWithStr "<html" (jsToLower (jsTrim s))

/-- A 2-model environment whose upstream answers every attempt with an
HTML error page (which is not parseable JSON). -/
def envHtmlUpstream : Env :=
  ⟨some "https://u", some "k", some "m1,m2", false, fun _ => none,
    fun _ _ => .ok (.str "<!DOCTYPE html><html><body>Bad gateway</body></html>"),
    fun _ _ => ([], none)⟩

/-- A 1-model environment with the API URL unset. -/
def envNoConfig : Env :=
  ⟨none, some "k", some "m1", false, fun _ => none,
    fun _ _ => .error "never reached", fun _ _ => ([], none)⟩

/-- An environment whose model configuration contains only a comma. -/
def envEmptyModels : Env :=
  ⟨some "https://u", some "k", some " , ", false, fun _ => none,
    fun _ _ => .error "x", fun _ _ => ([], none)⟩

/-- Example `tagStrategy` fields: no `commonTags`, 2 core keywords and 10
long-tail keywords (12 candidates, so truncation to 10 is visible). -/
def tsfEx : List (String × JsValue) :=
  [("tagCategories", .obj
    [("coreKeywords", .arr [.str "k1", .str "k2"]),
     ("longTailKeywords", .arr [.str "t1", .str "t2", .str "t3", .str "t4", .str "t5",
       .str "t6", .str "t7", .str "t8", .str "t9", .str "t10"])])]

/-- A streaming environment whose every chunk is either an unrecognized
object or an empty string. -/
def envStreamJunk : Env :=
  ⟨some "https://u", some "k", some "m1", false, fun _ => none,
    fun _ _ => .error "x", fun _ _ => ([.obj [("foo", .num 1)], .str ""], none)⟩

/-! ## Trace lemmas for always-failing upstreams -/

/-- The `lastError` message after running attempts `a, a+1, ...` (`fuel`
many) that all fail with `f`; the incoming value survives only when no
attempt runs. -/
def lastAfter (f : Nat → JsError) (a fuel : Nat) (last : Option String) : Option String :=
  match fuel with
  | 0 => last
  | fuel' + 1 => some (f (a + fuel')).message

/-- The full (model, attempt) grid tried on exhaustion: every model in
order, attempts `0..maxRetries` each. -/
def gridOf (cfg : RetryConfig) (ms : List String) : List (String × Nat) :=
  ms.bind (fun m => (List.range (cfg.maxRetries + 1)).map (fun a => (m, a)))

/-- Backoff sleeps of one fully exhausted model: `calculateDelay a` for
every attempt `a < maxRetries`. -/
def perModelSleeps (cfg : RetryConfig) : List Nat :=
  ((List.range (cfg.maxRetries + 1)).filter (fun i => decide (i < cfg.maxRetries))).map
    (calculateDelay cfg)

/-- The `lastError` after a list of models has been exhausted: the failure
of the last model's final attempt, or the incoming value for no models. -/
def lastAcross (cfg : RetryConfig) (f : String → Nat → JsError) (ms : List String)
    (last : Option String) : Option String :=
  match ms.getLast? with
  | none => last
  | some m => some (f m cfg.maxRetries).message

theorem runModel_allfail (env : Env) (cfg : RetryConfig) (fields : List String) (model : String)
    (f : Nat → JsError) (hf : ∀ a, attemptOnce env fields model a = .error (f a)) :
    ∀ fuel a last,
      (runModel env cfg fields model a fuel last).1 = .exhausted (lastAfter f a fuel last) ∧
      (runModel env cfg fields model a fuel last).2.1
        = (List.range' a fuel).map (fun i => (model, i)) ∧
      (runModel env cfg fields model a fuel last).2.2
        = ((List.range' a fuel).filter (fun i => decide (i < cfg.maxRetries))).map
            (calculateDelay cfg) := by
  intro fuel
  induction fuel with
  | zero => intro a last; simp [runModel, lastAfter]
  | succ n ih =>
    intro a last
    obtain ⟨ih1, ih2, ih3⟩ := ih (a + 1) (some (f a).message)
    rw [List.range'_succ]
    refine ⟨?_, ?_, ?_⟩
    · rw [runModel, hf a]
      simp only [ih1, lastAfter]
      cases n with
      | zero => simp [lastAfter]
      | succ n' =>
        have : a + 1 + n' = a + (n' + 1) := by omega
        simp [lastAfter, this]
    · rw [runModel, hf a]
      simp only [ih2, List.map_cons]
    · rw [runModel, hf a]
      simp only [ih3, List.filter_cons]
      by_cases hc : a < cfg.maxRetries
      · simp [hc]
      · simp [hc]

theorem runModels_allfail (env : Env) (cfg : RetryConfig) (fields : List String)
    (f : String → Nat → JsError)
    (hf : ∀ m a, attemptOnce env fields m a = .error (f m a)) :
    ∀ ms last,
      (runModels env cfg fields ms last).1 = .exhausted (lastAcross cfg f ms last) ∧
      (runModels env cfg fields ms last).2.1 = gridOf cfg ms ∧
      (runModels env cfg fields ms last).2.2 = ms.bind (fun _ => perModelSleeps cfg) := by
  intro ms
  induction ms with
  | nil => intro last; simp [runModels, lastAcross, gridOf]
  | cons m ms ih =>
    intro last
    obtain ⟨h1, h2, h3⟩ :=
      runModel_allfail env cfg fields m (f m) (fun a => hf m a) (cfg.maxRetries + 1) 0 last
    have hlast : lastAfter (f m) 0 (cfg.maxRetries + 1) last = some (f m cfg.maxRetries).message := by
      simp [lastAfter]
    obtain ⟨ih1, ih2, ih3⟩ := ih (some (f m cfg.maxRetries).message)
    have hsplit : runModels env cfg fields (m :: ms) last =
        (let r := runModel env cfg fields m 0 (cfg.maxRetries + 1) last
         match r.1 with
         | .success d => (.success d, r.2.1, r.2.2)
         | .exhausted last2 =>
           let r2 := runModels env cfg fields ms last2
           (r2.1, r.2.1 ++ r2.2.1, r.2.2 ++ r2.2.2)) := rfl
    rw [hsplit]
    simp only [h1, hlast]
    refine ⟨?_, ?_, ?_⟩
    · simp only [ih1, lastAcross]
      cases hms : ms.getLast? with
      | none =>
        have : ms = [] := List.getLast?_eq_none_iff.mp hms
        simp [this, List.getLast?]
      | some m' =>
        have : (m :: ms).getLast? = some m' := by
          cases ms with
          | nil => simp at hms
          | cons x xs => rw [List.getLast?_cons_cons, hms]
        simp [hms, this]
    · simp only [h2, ih2, gridOf, List.cons_bind, List.range_eq_range']
    · simp only [h3, ih3, perModelSleeps, List.cons_bind, List.range_eq_range']

theorem streamRunModel_allfail (env : Env) (cfg : RetryConfig) (model : String)
    (f : Nat → JsError) (hf : ∀ a, (streamAttemptOnce env model a).2 = some (f a)) :
    ∀ fuel a last,
      (streamRunModel env cfg model a fuel last).1 = false ∧
      (streamRunModel env cfg model a fuel last).2.1 = lastAfter f a fuel last ∧
      (streamRunModel env cfg model a fuel last).2.2.attempts
        = (List.range' a fuel).map (fun i => (model, i)) := by
  intro fuel
  induction fuel with
  | zero => intro a last; simp [streamRunModel, lastAfter]
  | succ n ih =>
    intro a last
    obtain ⟨ih1, ih2, ih3⟩ := ih (a + 1) (some (f a).message)
    rw [List.range'_succ]
    have hunf : streamRunModel env cfg model a (n + 1) last =
        (let att := streamAttemptOnce env model a
         match att.2 with
         | none => (true, last, ⟨att.1, [(model, a)], []⟩)
         | some e =>
           let sl := if a < cfg.maxRetries then [calculateDelay cfg a] else []
           let r := streamRunModel env cfg model (a + 1) n (some e.message)
           (r.1, r.2.1, ⟨att.1 ++ r.2.2.chunks, (model, a) :: r.2.2.attempts, sl ++ r.2.2.sleeps⟩)) :=
      rfl
    rw [hunf]
    simp only [hf a]
    refine ⟨ih1, ?_, ?_⟩
    · rw [ih2]
      cases n with
      | zero => simp [lastAfter]
      | succ n' =>
        have : a + 1 + n' = a + (n' + 1) := by omega
        simp [lastAfter, this]
    · simp only [ih3, List.map_cons]

theorem streamRunModels_allfail (env : Env) (cfg : RetryConfig)
    (f : String → Nat → JsError)
    (hf : ∀ m a, (streamAttemptOnce env m a).2 = some (f m a)) :
    ∀ ms last,
      (streamRunModels env cfg ms last).1 = false ∧
      (streamRunModels env cfg ms last).2.1 = lastAcross cfg f ms last ∧
      (streamRunModels env cfg ms last).2.2.attempts = gridOf cfg ms := by
  intro ms
  induction ms with
  | nil => intro last; simp [streamRunModels, lastAcross, gridOf]
  | cons m ms ih =>
    intro last
    obtain ⟨h1, h2, h3⟩ :=
      streamRunModel_allfail env cfg m (f m) (fun a => hf m a) (cfg.maxRetries + 1) 0 last
    have hlast : lastAfter (f m) 0 (cfg.maxRetries + 1) last
        = some (f m cfg.maxRetries).message := by simp [lastAfter]
    obtain ⟨ih1, ih2, ih3⟩ := ih (some (f m cfg.maxRetries).message)
    have hunf : streamRunModels env cfg (m :: ms) last =
        (let r := streamRunModel env cfg m 0 (cfg.maxRetries + 1) last
         if r.1 then r
         else
           let r2 := streamRunModels env cfg ms r.2.1
           (r2.1, r2.2.1,
             ⟨r.2.2.chunks ++ r2.2.2.chunks, r.2.2.attempts ++ r2.2.2.attempts,
               r.2.2.sleeps ++ r2.2.2.sleeps⟩)) := rfl
    rw [hunf]
    simp only [h1, h2, hlast, if_false, Bool.false_eq_true]
    refine ⟨ih1, ?_, ?_⟩
    · rw [ih2]
      simp only [lastAcross]
      cases hms : ms.getLast? with
      | none =>
        have : ms = [] := List.getLast?_eq_none_iff.mp hms
        simp [this, List.getLast?]
      | some m' =>
        have : (m :: ms).getLast? = some m' := by
          cases ms with
          | nil => simp at hms
          | cons x xs => rw [List.getLast?_cons_cons, hms]
        simp [hms, this]
    · simp only [h3, ih3, gridOf, List.cons_bind, List.range_eq_range']

theorem streamAttemptOnce_emitted_ne (env : Env) (model : String) (a : Nat) :
    ∀ c ∈ (streamAttemptOnce env model a).1, c ≠ "" := by
  intro c hc
  unfold streamAttemptOnce at hc
  rcases hcl : getClient env with be | u
  · rw [hcl] at hc; simp at hc
  · rw [hcl] at hc
    simp only at hc
    rcases hd : (env.streamRespond model a).2 with _ | m
    · rw [hd] at hc
      by_cases he :
          (((env.streamRespond model a).1.map extractChunkContent).filter (fun s => s ≠ "")).isEmpty
      · simp only [he, if_true] at hc; simp at hc
      · simp only [he, if_false] at hc
        have := List.of_mem_filter hc
        simpa using this
    · rw [hd] at hc
      have := List.of_mem_filter hc
      simpa using this

theorem streamRunModel_chunks_ne (env : Env) (cfg : RetryConfig) (model : String) :
    ∀ fuel a last c, c ∈ (streamRunModel env cfg model a fuel last).2.2.chunks → c ≠ "" := by
  intro fuel
  induction fuel with
  | zero => intro a last c hc; simp [streamRunModel] at hc
  | succ n ih =>
    intro a last c hc
    have hunf : streamRunModel env cfg model a (n + 1) last =
        (let att := streamAttemptOnce env model a
         match att.2 with
         | none => (true, last, ⟨att.1, [(model, a)], []⟩)
         | some e =>
           let sl := if a < cfg.maxRetries then [calculateDelay cfg a] else []
           let r := streamRunModel env cfg model (a + 1) n (some e.message)
           (r.1, r.2.1, ⟨att.1 ++ r.2.2.chunks, (model, a) :: r.2.2.attempts, sl ++ r.2.2.sleeps⟩)) :=
      rfl
    rw [hunf] at hc
    rcases hatt : (streamAttemptOnce env model a).2 with _ | e
    · simp only [hatt] at hc
      exact streamAttemptOnce_emitted_ne env model a c hc
    · simp only [hatt] at hc
      rcases List.mem_append.mp hc with h | h
      · exact streamAttemptOnce_emitted_ne env model a c h
      · exact ih (a + 1) (some e.message) c h

theorem streamRunModels_chunks_ne (env : Env) (cfg : RetryConfig) :
    ∀ ms last c, c ∈ (streamRunModels env cfg ms last).2.2.chunks → c ≠ "" := by
  intro ms
  induction ms with
  | nil => intro last c hc; simp [streamRunModels] at hc
  | cons m ms ih =>
    intro last c hc
    have hunf : streamRunModels env cfg (m :: ms) last =
        (let r := streamRunModel env cfg m 0 (cfg.maxRetries + 1) last
         if r.1 then r
         else
           let r2 := streamRunModels env cfg ms r.2.1
           (r2.1, r2.2.1,
             ⟨r.2.2.chunks ++ r2.2.2.chunks, r.2.2.attempts ++ r2.2.2.attempts,
               r.2.2.sleeps ++ r2.2.2.sleeps⟩)) := rfl
    rw [hunf] at hc
    by_cases hb : (streamRunModel env cfg m 0 (cfg.maxRetries + 1) last).1
    · simp only [hb, if_true] at hc
      exact streamRunModel_chunks_ne env cfg m (cfg.maxRetries + 1) 0 last c hc
    · simp only [hb, if_false] at hc
      rcases List.mem_append.mp hc with h | h
      · exact streamRunModel_chunks_ne env cfg m (cfg.maxRetries + 1) 0 last c h
      · exact ih _ c h

/-! ## Claims about the backoff engine and the model list -/

/-- Claim C4: for every attempt index `a ≥ 0` the backoff delay equals
`min(baseDelay · backoffMultiplier ^ a, maxDelay)`, and (for a multiplier
of at least 1, which holds for the code's configuration of 2) the delay is
monotonically non-decreasing in the attempt index. -/
theorem calculateDelay_spec (cfg : RetryConfig) (a : Nat) :
    calculateDelay cfg a = min (cfg.baseDelay * cfg.backoffMultiplier ^ a) cfg.maxDelay ∧
    (∀ b, a ≤ b → 1 ≤ cfg.backoffMultiplier → calculateDelay cfg a ≤ calculateDelay cfg b) := by
  refine ⟨rfl, ?_⟩
  intro b hab hm
  exact min_le_min (Nat.mul_le_mul_left _ (Nat.pow_le_pow_right hm hab)) le_rfl

/-- Witness for C4 at the instance's own configuration. -/
theorem calculateDelay_spec_witness :
    (1 : Nat) ≤ 2 ∧ 1 ≤ defaultRetryConfig.backoffMultiplier ∧
    calculateDelay defaultRetryConfig 1
      = min (defaultRetryConfig.baseDelay * defaultRetryConfig.backoffMultiplier ^ 1)
          defaultRetryConfig.maxDelay ∧
    calculateDelay defaultRetryConfig 1 ≤ calculateDelay defaultRetryConfig 2 :=
  ⟨by decide, by decide, (calculateDelay_spec defaultRetryConfig 1).1,
    (calculateDelay_spec defaultRetryConfig 1).2 2 (by decide) (by decide)⟩

/-- Claim C5: `getModelList` splits the comma-separated configuration on
commas, trims every entry, drops empty entries and keeps the original
order (the filtered list is a sublist of the split-and-trimmed one); when
the variable is unset it falls back to the documented default.  The
configuration string `" gpt-a , , gpt-b "` resolves to exactly
`["gpt-a", "gpt-b"]`. -/
theorem getModelList_spec :
    parseModelList " gpt-a , , gpt-b " = ["gpt-a", "gpt-b"] ∧
    (∀ env : Env, env.modelEnv = none → getModelList env = parseModelList DEFAULT_AI_MODEL) ∧
    (∀ s, (parseModelList s).Sublist
      ((jsSplit ',' s.toList).map (fun cs => String.mk (jsTrimChars cs)))) ∧
    (∀ s name, name ∈ parseModelList s → name.length > 0) := by
  refine ⟨rfl, ?_, ?_, ?_⟩
  · intro env h; simp [getModelList, getEnvVar, h]
  · intro s; exact List.filter_sublist _
  · intro s name hn
    have := List.of_mem_filter hn
    simpa using this

/-- Witness for C5: the default fallback and non-emptiness of entries at a
concrete input. -/
theorem getModelList_spec_witness :
    getModelList envUnsetModel = parseModelList DEFAULT_AI_MODEL ∧
    "gpt-a" ∈ parseModelList " gpt-a , , gpt-b " ∧ "gpt-a".length > 0 :=
  ⟨getModelList_spec.2.1 envUnsetModel rfl, by decide,
    getModelList_spec.2.2.2 " gpt-a , , gpt-b " "gpt-a" (by decide)⟩

/-! ## Claim C8: the debug toggle never changes validation outcomes -/

theorem validateTitleFormulas_fst_true (x : JsValue) (e : List String) :
    (validateTitleFormulas true x e).1 = (validateTitleFormulas false x e).1 := by
  simp only [validateTitleFormulas,
    apply_ite (Prod.fst : List String × List String → List String)]

theorem validateContentStructure_fst_true (x : JsValue) (e : List String) :
    (validateContentStructure true x e).1 = (validateContentStructure false x e).1 := by
  simp only [validateContentStructure,
    apply_ite (Prod.fst : List String × List String → List String)]

theorem validateCoverStyleAnalysis_fst_true (x : JsValue) (e : List String) :
    (validateCoverStyleAnalysis true x e).1 = (validateCoverStyleAnalysis false x e).1 := by
  simp only [validateCoverStyleAnalysis,
    apply_ite (Prod.fst : List String × List String → List String)]

theorem validateTagStrategy_val_true (x : JsValue) (e : List String) :
    (validateTagStrategy true x e).1 = (validateTagStrategy false x e).1 := by
  simp only [validateTagStrategy,
    apply_ite (Prod.fst : JsValue × List String × List String → JsValue)]

theorem validateTagStrategy_errs_true (x : JsValue) (e : List String) :
    (validateTagStrategy true x e).2.1 = (validateTagStrategy false x e).2.1 := by
  simp only [validateTagStrategy,
    apply_ite (Prod.snd : JsValue × List String × List String → List String × List String),
    apply_ite (Prod.fst : List String × List String → List String)]

set_option maxHeartbeats 1600000 in
/-- Claim C8: the debug-logging toggle alters diagnostic output only — for
every parser oracle, content string and expected-field list,
`validateJsonResponse` produces the same `ValidationResult` (same
`isValid`, same `data`, same `errors` in the same order) with the toggle
on as with it off. -/
theorem validateJsonResponse_debug_independent (parse : String → Option JsValue)
    (content : String) (fields : List String) :
    (validateJsonResponse true parse content fields).1
      = (validateJsonResponse false parse content fields).1 := by
  unfold validateJsonResponse
  rcases hp : parse content with _ | parsed
  · split_ifs <;> rfl
  · split_ifs <;> (try rfl) <;>
      simp only [validateTitleFormulas_fst_true, validateContentStructure_fst_true,
        validateCoverStyleAnalysis_fst_true, validateTagStrategy_val_true,
        validateTagStrategy_errs_true,
        apply_ite (Prod.fst : List String × List String → List String)]

/-! ## Exhaustion of all models -/

theorem analyzeWithRetry_allfail_aux (env : Env) (cfg : RetryConfig) (fields : List String)
    (f : String → Nat → JsError)
    (hf : ∀ m a, attemptOnce env fields m a = .error (f m a))
    (lastM : String) (hl : (getModelList env).getLast? = some lastM) :
    (analyzeWithRetry env cfg fields).attempts = gridOf cfg (getModelList env) ∧
    (analyzeWithRetry env cfg fields).sleeps
      = (getModelList env).bind (fun _ => perModelSleeps cfg) ∧
    (analyzeWithRetry env cfg fields).outcome = .error (.business
      ⟨"AI分析失败，已尝试所有模型 [" ++ joinSep ", " (getModelList env) ++ "]，每个模型重试"
          ++ toString cfg.maxRetries ++ "次: " ++ (f lastM cfg.maxRetries).message,
        "AI分析失败", "请稍后重试，如果问题持续请联系技术支持", true⟩) := by
  obtain ⟨h1, h2, h3⟩ := runModels_allfail env cfg fields f hf (getModelList env) none
  have hla : lastAcross cfg f (getModelList env) none
      = some ((f lastM cfg.maxRetries).message) := by
    simp [lastAcross, hl]
  unfold analyzeWithRetry
  simp only [h1, h2, h3, hla]
  exact ⟨trivial, trivial, rfl⟩

/-- Claim C3: when every attempt fails with a recoverable error,
`analyzeWithRetry` performs exactly `maxRetries + 1` attempts per model,
taking models strictly in list order and restarting the attempt counter
at zero for each model (the attempt trace is the full (model, attempt)
grid), and then throws a single exhaustion `BusinessError` whose message
names every attempted model and ends with the last underlying error
message. -/
theorem analyzeWithRetry_exhaustion (env : Env) (cfg : RetryConfig) (fields : List String)
    (f : String → Nat → JsError)
    (hf : ∀ m a, attemptOnce env fields m a = .error (f m a))
    (lastM : String) (hl : (getModelList env).getLast? = some lastM) :
    (analyzeWithRetry env cfg fields).attempts = gridOf cfg (getModelList env) ∧
    (analyzeWithRetry env cfg fields).outcome = .error (.business
      ⟨"AI分析失败，已尝试所有模型 [" ++ joinSep ", " (getModelList env) ++ "]，每个模型重试"
          ++ toString cfg.maxRetries ++ "次: " ++ (f lastM cfg.maxRetries).message,
        "AI分析失败", "请稍后重试，如果问题持续请联系技术支持", true⟩) :=
  ⟨(analyzeWithRetry_allfail_aux env cfg fields f hf lastM hl).1,
    (analyzeWithRetry_allfail_aux env cfg fields f hf lastM hl).2.2⟩

/-- Witness for C3: a 2-model list with `maxRetries = 2` yields exactly 3
attempts per model (6 total) and the aggregate error names both models
and the last underlying message. -/
theorem analyzeWithRetry_exhaustion_witness :
    (analyzeWithRetry envAlwaysFail defaultRetryConfig []).attempts
      = [("m1", 0), ("m1", 1), ("m1", 2), ("m2", 0), ("m2", 1), ("m2", 2)] ∧
    (analyzeWithRetry envAlwaysFail defaultRetryConfig []).outcome = .error (.business
      ⟨"AI分析失败，已尝试所有模型 [m1, m2]，每个模型重试2次: boom",
        "AI分析失败", "请稍后重试，如果问题持续请联系技术支持", true⟩) := by
  obtain ⟨h1, h2⟩ := analyzeWithRetry_exhaustion envAlwaysFail defaultRetryConfig []
    (fun _ _ => .plain "boom") (fun _ _ => rfl) "m2" rfl
  exact ⟨h1.trans rfl, h2.trans rfl⟩

/-! ## Claim C1: doctype/html responses -/

theorem htmlPrefixed_not_blank (s : String) (h : htmlPrefixed s = true) :
    (decide (s = "") || decide (jsTrim s = "")) = false := by
  by_cases h1 : s = ""
  · rw [h1] at h; exact absurd h (by decide)
  · by_cases h2 : jsTrim s = ""
    · unfold htmlPrefixed at h; rw [h2] at h; exact absurd h (by decide)
    · simp [h1, h2]

theorem attemptOnce_invalid_json (env : Env) (fields : List String) (m : String) (a : Nat)
    (page : String)
    (hclient : getClient env = .ok ())
    (hresp : env.respond m a = .ok (.str page))
    (hblank : (decide (page = "") || decide (jsTrim page = "")) = false)
    (hparse : env.parse page = none) :
    attemptOnce env fields m a
      = .error (.plain ("AI响应验证失败: AI返回的不是有效的JSON格式")) := by
  unfold attemptOnce
  rw [hclient, hresp]
  have hext : extractContent (.str page) = page := rfl
  dsimp only
  rw [hext, hblank]
  unfold validateJsonResponse
  rw [hblank, hparse]
  rfl

/-- Claim C1 (amended): `analyzeWithRetry` has no doctype/html detection
at all.  With a configured client, an upstream that answers every attempt
with a web page (text that begins, after trimming and case-folding, with
a doctype or html tag, hence is not JSON) is treated as an ordinary
recoverable validation failure: the orchestrator still performs
`maxRetries + 1` attempts for every model in the list — not one — and
then throws the aggregate exhaustion error. -/
theorem analyzeWithRetry_html_retried (env : Env) (cfg : RetryConfig) (fields : List String)
    (page : String)
    (hhtml : htmlPrefixed page = true)
    (hclient : getClient env = .ok ())
    (hresp : ∀ m a, env.respond m a = .ok (.str page))
    (hparse : env.parse page = none)
    (lastM : String) (hl : (getModelList env).getLast? = some lastM) :
    (analyzeWithRetry env cfg fields).attempts = gridOf cfg (getModelList env) ∧
    (analyzeWithRetry env cfg fields).outcome = .error (.business
      ⟨"AI分析失败，已尝试所有模型 [" ++ joinSep ", " (getModelList env) ++ "]，每个模型重试"
          ++ toString cfg.maxRetries ++ "次: " ++ "AI响应验证失败: AI返回的不是有效的JSON格式",
        "AI分析失败", "请稍后重试，如果问题持续请联系技术支持", true⟩) := by
  have hf : ∀ m a, attemptOnce env fields m a
      = .error (.plain ("AI响应验证失败: AI返回的不是有效的JSON格式")) := fun m a =>
    attemptOnce_invalid_json env fields m a page hclient (hresp m a)
      (htmlPrefixed_not_blank page hhtml) hparse
  obtain ⟨h1, h2, h3⟩ := analyzeWithRetry_allfail_aux env cfg fields
    (fun _ _ => .plain ("AI响应验证失败: AI返回的不是有效的JSON格式")) hf lastM hl
  simp only [JsError.message] at h3
  exact ⟨h1, h3⟩

/-- Witness for the amended C1 at a concrete environment. -/
theorem analyzeWithRetry_html_retried_witness :
    htmlPrefixed "<!DOCTYPE html><html><body>Bad gateway</body></html>" = true ∧
    (analyzeWithRetry envHtmlUpstream defaultRetryConfig []).attempts
      = [("m1", 0), ("m1", 1), ("m1", 2), ("m2", 0), ("m2", 1), ("m2", 2)] ∧
    (analyzeWithRetry envHtmlUpstream defaultRetryConfig []).outcome = .error (.business
      ⟨"AI分析失败，已尝试所有模型 [m1, m2]，每个模型重试2次: AI响应验证失败: AI返回的不是有效的JSON格式",
        "AI分析失败", "请稍后重试，如果问题持续请联系技术支持", true⟩) := by
  obtain ⟨h1, h2⟩ := analyzeWithRetry_html_retried envHtmlUpstream defaultRetryConfig []
    "<!DOCTYPE html><html><body>Bad gateway</body></html>" (by decide) rfl
    (fun _ _ => rfl) rfl "m2" rfl
  exact ⟨by decide, h1.trans rfl, h2.trans rfl⟩

/-- Counterexample to claim C1 as stated: a response whose trimmed,
case-folded text starts with a doctype does not abort after one attempt —
the concrete run performs six attempts (three per model) and does try the
second model. -/
theorem analyzeWithRetry_html_counterexample :
    htmlPrefixed "<!DOCTYPE html><html><body>Bad gateway</body></html>" = true ∧
    (analyzeWithRetry envHtmlUpstream defaultRetryConfig []).attempts
      = [("m1", 0), ("m1", 1), ("m1", 2), ("m2", 0), ("m2", 1), ("m2", 2)] := by
  exact ⟨by decide, rfl⟩

/-! ## Claim C2: missing configuration -/

theorem attemptOnce_client_error (env : Env) (fields : List String) (m : String) (a : Nat)
    (ce : BusinessError) (hc : getClient env = .error ce) :
    attemptOnce env fields m a = .error (.business ce) := by
  unfold attemptOnce
  rw [hc]

/-- Claim C2 (amended): when the API base URL or the API key is absent,
`getClient` does fail immediately with the non-retryable configuration
`BusinessError` — but `analyzeWithRetry`'s `catch` treats it like any
other failure: the configuration error does not short-circuit the loop.
Every model is still attempted `maxRetries + 1` times with backoff sleeps
in between, and the caller finally receives the aggregate exhaustion
error (marked retryable), whose underlying message is the configuration
message. -/
theorem getClient_config_error_retried (env : Env) (cfg : RetryConfig) (fields : List String)
    (hcfg : optTruthy env.apiUrl = false ∨ optTruthy env.apiKey = false)
    (lastM : String) (hl : (getModelList env).getLast? = some lastM) :
    getClient env = .error ⟨"AI服务配置不完整", "AI服务配置错误",
      "请检查环境变量配置，确保API地址和密钥正确设置", false⟩ ∧
    (analyzeWithRetry env cfg fields).attempts = gridOf cfg (getModelList env) ∧
    (analyzeWithRetry env cfg fields).sleeps
      = (getModelList env).bind (fun _ => perModelSleeps cfg) ∧
    (analyzeWithRetry env cfg fields).outcome = .error (.business
      ⟨"AI分析失败，已尝试所有模型 [" ++ joinSep ", " (getModelList env) ++ "]，每个模型重试"
          ++ toString cfg.maxRetries ++ "次: " ++ "AI服务配置不完整",
        "AI分析失败", "请稍后重试，如果问题持续请联系技术支持", true⟩) := by
  have hclient : getClient env = .error ⟨"AI服务配置不完整", "AI服务配置错误",
      "请检查环境变量配置，确保API地址和密钥正确设置", false⟩ := by
    unfold getClient
    rcases hcfg with h | h <;> simp [h]
  have hf : ∀ m a, attemptOnce env fields m a = .error (.business
      ⟨"AI服务配置不完整", "AI服务配置错误",
        "请检查环境变量配置，确保API地址和密钥正确设置", false⟩) := fun m a =>
    attemptOnce_client_error env fields m a _ hclient
  obtain ⟨h1, h2, h3⟩ := analyzeWithRetry_allfail_aux env cfg fields
    (fun _ _ => .business ⟨"AI服务配置不完整", "AI服务配置错误",
      "请检查环境变量配置，确保API地址和密钥正确设置", false⟩) hf lastM hl
  simp only [JsError.message] at h3
  exact ⟨hclient, h1, h2, h3⟩

/-- Witness for the amended C2 at a concrete environment. -/
theorem getClient_config_error_retried_witness :
    getClient envNoConfig = .error ⟨"AI服务配置不完整", "AI服务配置错误",
      "请检查环境变量配置，确保API地址和密钥正确设置", false⟩ ∧
    (analyzeWithRetry envNoConfig defaultRetryConfig []).attempts
      = [("m1", 0), ("m1", 1), ("m1", 2)] ∧
    (analyzeWithRetry envNoConfig defaultRetryConfig []).sleeps = [1000, 2000] ∧
    (analyzeWithRetry envNoConfig defaultRetryConfig []).outcome = .error (.business
      ⟨"AI分析失败，已尝试所有模型 [m1]，每个模型重试2次: AI服务配置不完整",
        "AI分析失败", "请稍后重试，如果问题持续请联系技术支持", true⟩) := by
  obtain ⟨h0, h1, h2, h3⟩ := getClient_config_error_retried envNoConfig defaultRetryConfig []
    (Or.inl rfl) "m1" rfl
  exact ⟨h0, h1.trans rfl, h2.trans rfl, h3.trans rfl⟩

/-- Counterexample to claim C2 as stated: with the API URL absent, the
configuration error raised by `getClient` does not propagate directly to
the caller — the concrete run still performs three attempts with two
backoff sleeps, and the caller receives the aggregate exhaustion error
(category `AI分析失败`, retryable) instead of the configuration error
(category `AI服务配置错误`, non-retryable). -/
theorem getClient_short_circuit_counterexample :
    getClient envNoConfig = .error ⟨"AI服务配置不完整", "AI服务配置错误",
      "请检查环境变量配置，确保API地址和密钥正确设置", false⟩ ∧
    (analyzeWithRetry envNoConfig defaultRetryConfig []).attempts
      = [("m1", 0), ("m1", 1), ("m1", 2)] ∧
    (analyzeWithRetry envNoConfig defaultRetryConfig []).sleeps = [1000, 2000] ∧
    (analyzeWithRetry envNoConfig defaultRetryConfig []).outcome = .error (.business
      ⟨"AI分析失败，已尝试所有模型 [m1]，每个模型重试2次: AI服务配置不完整",
        "AI分析失败", "请稍后重试，如果问题持续请联系技术支持", true⟩) :=
  ⟨rfl, rfl, rfl, rfl⟩

/-! ## Claim C6: empty resolved model list -/

/-- Claim C6 (amended): `getModelList` can resolve to the empty list (for
a configuration of only commas and whitespace); `analyzeWithRetry` then
performs zero attempts and throws the aggregate exhaustion error naming
an empty model list with last message `undefined` (category `AI分析失败`,
marked retryable) — it does not fail fast with a configuration error. -/
theorem analyzeWithRetry_empty_models (env : Env) (cfg : RetryConfig) (fields : List String)
    (hm : getModelList env = []) :
    (analyzeWithRetry env cfg fields).attempts = [] ∧
    (analyzeWithRetry env cfg fields).sleeps = [] ∧
    (analyzeWithRetry env cfg fields).outcome = .error (.business
      ⟨"AI分析失败，已尝试所有模型 [" ++ joinSep ", " (getModelList env) ++ "]，每个模型重试"
          ++ toString cfg.maxRetries ++ "次: " ++ "undefined",
        "AI分析失败", "请稍后重试，如果问题持续请联系技术支持", true⟩) := by
  unfold analyzeWithRetry
  rw [hm]
  exact ⟨rfl, rfl, rfl⟩

/-- Witness for the amended C6 at a concrete environment. -/
theorem analyzeWithRetry_empty_models_witness :
    getModelList envEmptyModels = [] ∧
    (analyzeWithRetry envEmptyModels defaultRetryConfig []).attempts = [] ∧
    (analyzeWithRetry envEmptyModels defaultRetryConfig []).outcome = .error (.business
      ⟨"AI分析失败，已尝试所有模型 []，每个模型重试2次: undefined",
        "AI分析失败", "请稍后重试，如果问题持续请联系技术支持", true⟩) := by
  obtain ⟨h1, _, h3⟩ :=
    analyzeWithRetry_empty_models envEmptyModels defaultRetryConfig [] rfl
  exact ⟨rfl, h1, h3.trans rfl⟩

/-- Counterexample to claim C6 as stated: the configuration `" , "`
resolves to the empty model list, and the invoker does not fail fast with
a configuration error — it throws the retryable aggregate exhaustion
error naming zero models after zero attempts. -/
theorem getModelList_empty_counterexample :
    parseModelList " , " = [] ∧
    getModelList envEmptyModels = [] ∧
    (analyzeWithRetry envEmptyModels defaultRetryConfig []).attempts = [] ∧
    (analyzeWithRetry envEmptyModels defaultRetryConfig []).outcome = .error (.business
      ⟨"AI分析失败，已尝试所有模型 []，每个模型重试2次: undefined",
        "AI分析失败", "请稍后重试，如果问题持续请联系技术支持", true⟩) :=
  ⟨rfl, rfl, rfl, rfl⟩

/-! ## Claim C7: commonTags synthesis in validateTagStrategy -/

theorem asArray_jsGet_falsy (v : JsValue) (k : String) (h : jsTruthy v = false) :
    asArray (jsGet v k) = [] := by
  cases v with
  | obj fields => simp [jsTruthy] at h
  | arr l => simp [jsTruthy] at h
  | null => rfl
  | undefined => rfl
  | bool b => rfl
  | num n => rfl
  | str s => rfl

theorem validateJsonResponse_tagStrategy_only (d : Bool) (parse : String → Option JsValue)
    (content : String) (parsed : JsValue)
    (hc : (decide (content = "") || decide (jsTrim content = "")) = false)
    (hp : parse content = some parsed) :
    (validateJsonResponse d parse content ["tagStrategy"]).1 =
      (let errs0 : List String :=
        if !jsHasKey parsed "tagStrategy" || !jsTruthy (jsGet parsed "tagStrategy") then
          ["缺少必需字段: " ++ "tagStrategy"]
        else []
       let r := validateTagStrategy d (jsGet parsed "tagStrategy") errs0
       let parsed2 := if jsHasKey parsed "tagStrategy" then jsSet parsed "tagStrategy" r.1 else parsed
       ⟨r.2.1.isEmpty, parsed2, r.2.1⟩) := by
  unfold validateJsonResponse
  rw [hp]
  simp only [hc, Bool.false_eq_true, if_false, if_true,
    show ((["tagStrategy"] : List String).contains "rules") = false from rfl,
    show ((["tagStrategy"] : List String).contains "titleFormulas") = false from rfl,
    show ((["tagStrategy"] : List String).contains "contentStructure") = false from rfl,
    show ((["tagStrategy"] : List String).contains "tagStrategy") = true from rfl,
    show ((["tagStrategy"] : List String).contains "coverStyleAnalysis") = false from rfl,
    List.foldl_cons, List.foldl_nil, List.nil_append]

/-- Claim C7 (amended): for a parsed `tagStrategy` object, a falsy
`commonTags` — absent, or present but falsy (`''`, `0`, `null`, `false`),
which the code treats identically — is overwritten with the concatenation
of `tagCategories.coreKeywords` and `tagCategories.longTailKeywords`
(each treated as empty when absent or not an array) truncated to at most
10 entries, and no error is recorded, so validation of
`expectedFields = ["tagStrategy"]` succeeds and returns the mutated
object; an error is recorded only when `commonTags` is present, truthy
and not an array. -/
theorem validateTagStrategy_spec (d : Bool) (tsf : List (String × JsValue)) (errs : List String) :
    (jsTruthy (jsGet (.obj tsf) "commonTags") = false →
      (validateTagStrategy d (.obj tsf) errs).1
        = jsSet (.obj tsf) "commonTags" (.arr
            ((asArray (jsGet (jsGet (.obj tsf) "tagCategories") "coreKeywords")
              ++ asArray (jsGet (jsGet (.obj tsf) "tagCategories") "longTailKeywords")).take 10)) ∧
      (validateTagStrategy d (.obj tsf) errs).2.1 = errs) ∧
    (jsTruthy (jsGet (.obj tsf) "commonTags") = true →
      jsIsArray (jsGet (.obj tsf) "commonTags") = false →
      (validateTagStrategy d (.obj tsf) errs).1 = .obj tsf ∧
      (validateTagStrategy d (.obj tsf) errs).2.1
        = errs ++ ["tagStrategy.commonTags应该是数组"]) ∧
    (jsTruthy (jsGet (.obj tsf) "commonTags") = false →
      (validateJsonResponse d (fun _ => some (.obj [("tagStrategy", .obj tsf)]))
          "x" ["tagStrategy"]).1
        = ⟨true,
            .obj [("tagStrategy", jsSet (.obj tsf) "commonTags" (.arr
              ((asArray (jsGet (jsGet (.obj tsf) "tagCategories") "coreKeywords")
                ++ asArray (jsGet (jsGet (.obj tsf) "tagCategories") "longTailKeywords")).take 10)))],
            []⟩) := by
  have hA : ∀ e : List String, jsTruthy (jsGet (.obj tsf) "commonTags") = false →
      (validateTagStrategy d (.obj tsf) e).1
        = jsSet (.obj tsf) "commonTags" (.arr
            ((asArray (jsGet (jsGet (.obj tsf) "tagCategories") "coreKeywords")
              ++ asArray (jsGet (jsGet (.obj tsf) "tagCategories") "longTailKeywords")).take 10)) ∧
      (validateTagStrategy d (.obj tsf) e).2.1 = e := by
    intro e h
    unfold validateTagStrategy
    simp only [show (!jsTruthy (JsValue.obj tsf) || !jsIsObjectType (JsValue.obj tsf)) = false
        from rfl, Bool.false_eq_true, if_false, h, Bool.not_false, if_true]
    by_cases htc : jsTruthy (jsGet (.obj tsf) "tagCategories") = true
    · simp only [htc, if_true]
      refine ⟨?_, ?_⟩ <;> first | rfl | trivial
    · simp only [Bool.not_eq_true] at htc
      simp only [htc, Bool.false_eq_true, if_false]
      rw [asArray_jsGet_falsy _ _ htc, asArray_jsGet_falsy _ _ htc]
      refine ⟨?_, ?_⟩ <;> first | rfl | trivial
  refine ⟨hA errs, ?_, ?_⟩
  · intro h1 h2
    unfold validateTagStrategy
    simp only [show (!jsTruthy (JsValue.obj tsf) || !jsIsObjectType (JsValue.obj tsf)) = false
        from rfl, Bool.false_eq_true, if_false, h1, h2, Bool.not_true, Bool.not_false, if_true]
    refine ⟨?_, ?_⟩ <;> first | rfl | trivial
  · intro h
    obtain ⟨hA1, hA2⟩ := hA [] h
    rw [validateJsonResponse_tagStrategy_only d _ "x" (.obj [("tagStrategy", .obj tsf)])
      (by decide) rfl]
    simp only [show jsHasKey (JsValue.obj [("tagStrategy", JsValue.obj tsf)]) "tagStrategy" = true
        from rfl,
      show jsGet (JsValue.obj [("tagStrategy", JsValue.obj tsf)]) "tagStrategy" = JsValue.obj tsf
        from rfl,
      show jsTruthy (JsValue.obj tsf) = true from rfl,
      Bool.not_true, Bool.false_or, Bool.false_eq_true, if_false, if_true, eq_self_iff_true,
      hA1, hA2]
    rfl

/-- Witness for the amended C7: synthesis with truncation to 10 entries,
successful validation, and the error on a truthy non-array `commonTags`. -/
theorem validateTagStrategy_spec_witness :
    jsTruthy (jsGet (.obj tsfEx) "commonTags") = false ∧
    (validateTagStrategy false (.obj tsfEx) []).1
      = .obj [("tagCategories", .obj
          [("coreKeywords", .arr [.str "k1", .str "k2"]),
           ("longTailKeywords", .arr [.str "t1", .str "t2", .str "t3", .str "t4", .str "t5",
             .str "t6", .str "t7", .str "t8", .str "t9", .str "t10"])]),
         ("commonTags", .arr [.str "k1", .str "k2", .str "t1", .str "t2", .str "t3", .str "t4",
           .str "t5", .str "t6", .str "t7", .str "t8"])] ∧
    (validateTagStrategy false (.obj tsfEx) []).2.1 = [] ∧
    ((validateJsonResponse false (fun _ => some (.obj [("tagStrategy", .obj tsfEx)]))
        "x" ["tagStrategy"]).1).isValid = true ∧
    (validateTagStrategy false (.obj [("commonTags", .num 5)]) []).2.1
      = ["tagStrategy.commonTags应该是数组"] := by
  obtain ⟨w1, w2, w3⟩ := validateTagStrategy_spec false tsfEx []
  obtain ⟨wa1, wa2⟩ := w1 rfl
  obtain ⟨wb1, wb2⟩ := validateTagStrategy_spec false [("commonTags", .num 5)] [] |>.2.1 rfl rfl
  exact ⟨rfl, wa1.trans rfl, wa2, by rw [w3 rfl], wb2.trans rfl⟩

/-- Counterexample to claim C7 as stated: `commonTags` present but equal
to the (non-array) empty string records no error — validation succeeds
and the value is silently replaced by the synthesized (here empty) array,
where the claim demands an error. -/
theorem validateTagStrategy_counterexample :
    jsHasKey (.obj [("commonTags", .str "")]) "commonTags" = true ∧
    jsIsArray (jsGet (.obj [("commonTags", .str "")]) "commonTags") = false ∧
    (validateTagStrategy false (.obj [("commonTags", .str "")]) []).2.1 = [] ∧
    (validateTagStrategy false (.obj [("commonTags", .str "")]) []).1
      = .obj [("commonTags", .arr [])] ∧
    ((validateJsonResponse false
        (fun _ => some (.obj [("tagStrategy", .obj [("commonTags", .str "")])]))
        "x" ["tagStrategy"]).1).isValid = true :=
  ⟨rfl, rfl, rfl, rfl, rfl⟩

/-! ## Claims C9 and C10: the streaming variant -/

/-- Claim C9: when every model has exhausted every retry,
`generateStreamWithRetry` invokes the caller-supplied error sink exactly
once (the `errorCalls` trace is a one-element list), with the aggregate
`BusinessError` naming all tried models; the function itself returns
normally — by construction it yields a `StreamResult` and has no thrown
error channel, failure being reported only through `errorCalls`. -/
theorem generateStreamWithRetry_exhaustion (env : Env) (cfg : RetryConfig)
    (f : String → Nat → JsError)
    (hf : ∀ m a, (streamAttemptOnce env m a).2 = some (f m a))
    (lastM : String) (hl : (getModelList env).getLast? = some lastM) :
    (generateStreamWithRetry env cfg).errorCalls
      = [⟨"流式生成失败，已尝试所有模型 [" ++ joinSep ", " (getModelList env) ++ "]，每个模型重试"
            ++ toString cfg.maxRetries ++ "次: " ++ (f lastM cfg.maxRetries).message,
          "内容生成失败", "请稍后重试，如果问题持续请联系技术支持", true⟩] ∧
    (generateStreamWithRetry env cfg).attempts = gridOf cfg (getModelList env) := by
  obtain ⟨h1, h2, h3⟩ := streamRunModels_allfail env cfg f hf (getModelList env) none
  have hla : lastAcross cfg f (getModelList env) none
      = some ((f lastM cfg.maxRetries).message) := by
    simp [lastAcross, hl]
  unfold generateStreamWithRetry
  simp only [h1, h2, h3, hla, Bool.false_eq_true, if_false]
  refine ⟨?_, ?_⟩ <;> first | rfl | trivial

/-- Witness for C9 at a concrete always-failing streaming upstream. -/
theorem generateStreamWithRetry_exhaustion_witness :
    (generateStreamWithRetry envAlwaysFail defaultRetryConfig).errorCalls
      = [⟨"流式生成失败，已尝试所有模型 [m1, m2]，每个模型重试2次: boom",
          "内容生成失败", "请稍后重试，如果问题持续请联系技术支持", true⟩] ∧
    (generateStreamWithRetry envAlwaysFail defaultRetryConfig).attempts
      = [("m1", 0), ("m1", 1), ("m1", 2), ("m2", 0), ("m2", 1), ("m2", 2)] := by
  obtain ⟨h1, h2⟩ := generateStreamWithRetry_exhaustion envAlwaysFail defaultRetryConfig
    (fun _ _ => .plain "boom") (fun _ _ => rfl) "m2" rfl
  exact ⟨h1.trans rfl, h2.trans rfl⟩

/-- Claim C10: `generateStreamWithRetry` never invokes the fragment sink
with an empty string, and a cleanly completed streaming attempt all of
whose chunks extract to empty content (empty extracted text or an
unrecognized shape) emits nothing and fails the attempt with the
no-content error — it does not count as received content. -/
theorem generateStream_no_empty_chunk (env : Env) (cfg : RetryConfig) :
    (∀ c ∈ (generateStreamWithRetry env cfg).chunks, c ≠ "") ∧
    (∀ m a, (∀ ch ∈ (env.streamRespond m a).1, extractChunkContent ch = "") →
      (env.streamRespond m a).2 = none →
      (streamAttemptOnce env m a).1 = [] ∧ (streamAttemptOnce env m a).2.isSome = true) := by
  constructor
  · intro c hc
    have hch : (generateStreamWithRetry env cfg).chunks
        = (streamRunModels env cfg (getModelList env) none).2.2.chunks := by
      unfold generateStreamWithRetry
      by_cases hb : (streamRunModels env cfg (getModelList env) none).1 <;> simp [hb]
    rw [hch] at hc
    exact streamRunModels_chunks_ne env cfg (getModelList env) none c hc
  · intro m a hall hnone
    have hemp : ((env.streamRespond m a).1.map extractChunkContent).filter (fun s => s ≠ "")
        = [] := by
      rw [List.filter_eq_nil]
      intro s hs
      obtain ⟨ch, hch, hs'⟩ := List.mem_map.mp hs
      subst hs'
      simp [hall ch hch]
    unfold streamAttemptOnce
    rcases hcl : getClient env with be | u
    · exact ⟨rfl, rfl⟩
    · simp only [hnone, hemp, List.isEmpty_nil, if_true]
      refine ⟨?_, ?_⟩ <;> first | rfl | trivial

/-- Witness for C10 at a concrete junk-chunk stream. -/
theorem generateStream_no_empty_chunk_witness :
    "" ∉ (generateStreamWithRetry envStreamJunk defaultRetryConfig).chunks ∧
    (streamAttemptOnce envStreamJunk "m1" 0).1 = [] ∧
    (streamAttemptOnce envStreamJunk "m1" 0).2.isSome = true := by
  have h := generateStream_no_empty_chunk envStreamJunk defaultRetryConfig
  refine ⟨fun hmem => h.1 "" hmem rfl, ?_, ?_⟩
  · exact (h.2 "m1" 0 (by decide) rfl).1
  · exact (h.2 "m1" 0 (by decide) rfl).2
